import Mathlib

/-!
Verification development for the wallet balance-aggregation backend.

Shallow embedding conventions:
- Every outbound HTTP call of the source is modelled by an environment field of
  type `CallRes δ`: the call either raised an exception (`throws`, covering both
  a rejected fetch and a failing `response.json()`), returned a non-success
  HTTP status (`notOk`, the `!response.ok` branch), or produced parsed JSON
  data (`ok`).
- JSON numbers and the numeric strings returned by the explorer APIs are
  modelled as exact values (`Nat` for raw on-chain integers, `Rat` for
  prices and converted balances).  At every input verified below the
  JavaScript double computations are exact, so the rational model agrees
  with the source arithmetic.  An absent or empty `result` string is `none`;
  a present numeric string (including "0", which is truthy in JavaScript)
  is `some n`.
- Database rows live in a `Storage` record of in-memory tables.  Generated
  ids (`gen_random_uuid()`) are modelled by a counter, the server clock
  (`new Date()`) by a fixed `now` field; no verified claim is sensitive to
  either.  The `orderBy(desc(lastConnected))` of `getConnectedWallets` only
  permutes the result and is omitted: every verified claim reads that list
  through an order-insensitive observation (emptiness, lookup of a unique id).
-/

/-- Outcome of one `await fetch(...)` (plus `response.json()`) call site. -/
inductive CallRes (δ : Type) where
  | throws
  | notOk
  | ok (data : δ)
deriving DecidableEq

/-- Parsed body of an Etherscan-style balance response:
`{ status: string, result: string }`, the numeric `result` string as `Nat`. -/
structure EvmData where
  status : String
  result : Option Nat
deriving DecidableEq

/-- Responses of the EVM explorer APIs, indexed by network, address and
(for token-balance calls) token symbol. -/
structure EvmEnv where
  native : String → String → CallRes EvmData
  token : String → String → String → CallRes EvmData

/-- One entry of the TronGrid account response `data` array. -/
structure TronAccount where
  balance : Option Nat
deriving DecidableEq

/-- Body of the TronGrid `/v1/accounts/:address` response. -/
structure TronAccountData where
  data : Option (List TronAccount)
deriving DecidableEq

/-- One TRC-20 token entry of the TronGrid token-list response. -/
structure TrcToken where
  token_address : String
  balance : Nat
  token_decimal : Nat
deriving DecidableEq

/-- Body of the TronGrid `/v1/accounts/:address/tokens` response. -/
structure TronTokenData where
  data : Option (List TrcToken)
deriving DecidableEq

/-- Responses of the TronGrid API, indexed by address. -/
structure TronEnv where
  account : String → CallRes TronAccountData
  tokens : String → CallRes TronTokenData

/-- Response of the CoinGecko price API as a function of the requested id
list: an association of coin id to the optional `usd` field. -/
def PriceEnv : Type := List String → CallRes (List (String × Option Rat))

/-- All third-party responses visible to one reconciliation run. -/
structure Env where
  evm : EvmEnv
  tron : TronEnv
  price : PriceEnv

/-- A raw (symbol, decimal-adjusted balance, optional contract address)
tuple produced by a chain balance fetcher. -/
structure RawBalance where
  tokenSymbol : String
  balance : Rat
  tokenAddress : Option String
deriving DecidableEq

/-- `API_ENDPOINTS` of the source: per-network explorer base URLs. -/
def API_ENDPOINTS : List (String × List (String × String)) :=
  [("ethereum", [("etherscan", "https://api.etherscan.io/api"),
                 ("moralis", "https://deep-index.moralis.io/api/v2")]),
   ("bsc", [("bscscan", "https://api.bscscan.com/api"),
            ("moralis", "https://deep-index.moralis.io/api/v2")]),
   ("polygon", [("polygonscan", "https://api.polygonscan.com/api"),
                ("moralis", "https://deep-index.moralis.io/api/v2")]),
   ("tron", [("trongrid", "https://api.trongrid.io")])]

/-- `TOKEN_CONTRACTS` of the source: per-network token contract tables,
in object-entry order. -/
def TOKEN_CONTRACTS : List (String × List (String × String)) :=
  [("ethereum", [("USDT", "0xdAC17F958D2ee523a2206206994597C13D831ec7"),
                 ("USDC", "0xA0b86a33E6417C5BB1d1e91a064B1B8a9166B1b8"),
                 ("BNB", "0xB8c77482e45F1F44dE1745F52C74426C631bDD52")]),
   ("bsc", [("USDT", "0x55d398326f99059fF775485246999027B3197955"),
            ("USDC", "0x8AC76a51cc950d9822D68b83fE1Ad97B32Cd580d"),
            ("ETH", "0x2170Ed0880ac9A755fd29B2688956BD959F933F8")]),
   ("polygon", [("USDT", "0xc2132D05D31c914a87C6611C10748AEb04B58e8F"),
                ("USDC", "0x2791Bca1f2de4661ED88A30C99A7a9449Aa84174"),
                ("ETH", "0x7ceB23fD6bC0adD59E62ac25578270cFf1b9f619")])]

def COINGECKO_API : String := "https://api.coingecko.com/api/v3"

/-- The URL built by `getTokenPrices`: the raw input symbols are joined into
the `ids` query parameter. -/
def priceQueryUrl (symbols : List String) : String :=
  COINGECKO_API ++ "/simple/price?ids=" ++ String.intercalate "," symbols
    ++ "&vs_currencies=usd"

/-- The `symbolMapping` table inside `getTokenPrices`, in entry order. -/
def symbolMapping : List (String × String) :=
  [("BTC", "bitcoin"), ("ETH", "ethereum"), ("BNB", "binancecoin"),
   ("USDT", "tether"), ("USDC", "usd-coin"), ("MATIC", "matic-network"),
   ("TRX", "tron")]

/-- The response-side loop of `getTokenPrices`: for each `symbolMapping`
entry, include the symbol when `data[id] && data[id].usd` is truthy
(the id key is present and its `usd` field is present and non-zero). -/
def pricesFromResponse (data : List (String × Option Rat)) :
    List (String × Rat) :=
  symbolMapping.filterMap (fun entry =>
    match data.lookup entry.2 with
    | some (some usd) => if usd == 0 then none else some (entry.1, usd)
    | _ => none)

/-- `getTokenPrices` of the source: issues one query whose `ids` are the
joined raw symbols, then maps the fixed symbol table over the response.
Any exception or non-ok response yields the empty mapping.  Returns the
request URL together with the price mapping. -/
def getTokenPrices (env : PriceEnv) (symbols : List String) :
    String × List (String × Rat) :=
  (priceQueryUrl symbols,
   match env symbols with
   | CallRes.ok data => pricesFromResponse data
   | _ => [])

/-- The inline decimals choice of `fetchTokenBalances`:
`(symbol === 'USDT' || symbol === 'USDC') ? 6 : 18`. -/
def tokenDecimals (symbol : String) : Nat :=
  if symbol == "USDT" || symbol == "USDC" then 6 else 18

/-- `fetchNativeBalance` of the source.  Returns `none` when the network has
no endpoint entry, hits the default switch branch, the call fails, or the
response body lacks `status === '1'` or a (truthy) `result` string. -/
def fetchNativeBalance (e : EvmEnv) (address network : String) :
    Option RawBalance :=
  if (API_ENDPOINTS.lookup network).isSome then
    match (if network == "ethereum" then some "ETH"
           else if network == "bsc" then some "BNB"
           else if network == "polygon" then some "MATIC"
           else none) with
    | none => none
    | some nativeSymbol =>
      match e.native network address with
      | CallRes.ok d =>
        match d.result with
        | some n =>
          if d.status == "1" then
            some ⟨nativeSymbol, (n : Rat) / 10 ^ 18, none⟩
          else none
        | none => none
      | _ => none
  else none

/-- The per-token loop of `fetchTokenBalances`.  Its surrounding try/catch
means an exception at any call ends the loop with the entries collected so
far; a non-ok response merely skips that token (`continue`); a token is
included only when `status === '1'` and the `result` string is present and
not `'0'`. -/
def tokenFetchLoop (e : EvmEnv) (network address : String) :
    List (String × String) → List RawBalance
  | [] => []
  | (symbol, contractAddress) :: rest =>
    if network == "ethereum" || network == "bsc" || network == "polygon" then
      match e.token network address symbol with
      | CallRes.throws => []
      | CallRes.notOk => tokenFetchLoop e network address rest
      | CallRes.ok d =>
        match d.result with
        | some n =>
          if d.status == "1" && n != 0 then
            ⟨symbol, (n : Rat) / 10 ^ tokenDecimals symbol,
              some contractAddress⟩ :: tokenFetchLoop e network address rest
          else tokenFetchLoop e network address rest
        | none => tokenFetchLoop e network address rest
    else tokenFetchLoop e network address rest

/-- `fetchTokenBalances` of the source: empty when the network has no
contract table or no endpoints, else the per-token loop. -/
def fetchTokenBalances (e : EvmEnv) (address network : String) :
    List RawBalance :=
  match TOKEN_CONTRACTS.lookup network with
  | none => []
  | some toks =>
    if (API_ENDPOINTS.lookup network).isSome then
      tokenFetchLoop e network address toks
    else []

/-- `fetchEVMBalance` of the source: the native entry (when present)
followed by the token entries.  Both helpers absorb their own exceptions,
so the try/catch at the top of the source function never fires. -/
def fetchEVMBalance (e : EvmEnv) (address network : String) :
    List RawBalance :=
  (match fetchNativeBalance e address network with
   | some b => [b]
   | none => []) ++ fetchTokenBalances e address network

def usdtTrc20Address : String := "TR7NHqjeKQxGTCi8q8ZY4pL8otSzgjLj6t"

/-- `fetchTronBalance` of the source.  An exception during the account call
is caught by the function-level handler before anything was accumulated, so
it yields `[]`; an exception during the token call is caught after the TRX
entry may already have been pushed, so only the token part is lost. -/
def fetchTronBalance (e : TronEnv) (address : String) : List RawBalance :=
  match e.account address with
  | CallRes.throws => []
  | acctRes =>
    (match acctRes with
     | CallRes.ok acctData =>
       match acctData.data with
       | some (account :: _) =>
         if (0 : Rat) < (account.balance.getD 0 : Rat) / 1000000 then
           [⟨"TRX", (account.balance.getD 0 : Rat) / 1000000, none⟩]
         else []
       | _ => []
     | _ => []) ++
    (match e.tokens address with
     | CallRes.ok tokenData =>
       match tokenData.data with
       | some toks =>
         toks.filterMap (fun t =>
           if t.token_address == usdtTrc20Address then
             some ⟨"USDT", (t.balance : Rat) / 10 ^ t.token_decimal,
               some usdtTrc20Address⟩
           else none)
       | none => []
     | _ => [])

/-- A `connected_wallets` row (columns the modelled code reads or writes). -/
structure ConnectedWallet where
  id : String
  userId : String
  walletType : String
  walletAddress : String
  chainId : String
  network : String
  isActive : Bool
  lastConnected : Nat
deriving DecidableEq

/-- The insert shape passed to `createConnectedWallet`. -/
structure InsertConnectedWallet where
  userId : String
  walletType : String
  walletAddress : String
  chainId : String
  network : String
  isActive : Bool
  lastConnected : Nat
deriving DecidableEq

/-- A `wallet_balances` row; `walletId` is nullable in the schema. -/
structure WalletBalance where
  id : String
  userId : String
  walletId : Option String
  tokenSymbol : String
  tokenAddress : Option String
  balance : Rat
  balanceUSD : Option Rat
  lastUpdated : Nat
deriving DecidableEq

/-- The insert shape passed to `upsertWalletBalance`. -/
structure InsertWalletBalance where
  userId : String
  walletId : Option String
  tokenSymbol : String
  tokenAddress : Option String
  balance : Rat
  balanceUSD : Option Rat
deriving DecidableEq

/-- The database tables the modelled code touches, a counter for generated
row ids and the server clock. -/
structure Storage where
  connectedWallets : List ConnectedWallet
  walletBalances : List WalletBalance
  nextId : Nat
  now : Nat
deriving DecidableEq

/-- Fresh row id, modelling `gen_random_uuid()`. -/
def freshId (n : Nat) : String := "row-" ++ toString n

/-- `getConnectedWallets` of the storage layer: the rows of this user.  The
`orderBy(desc(lastConnected))` of the source is omitted (see header). -/
def getConnectedWallets (st : Storage) (userId : String) :
    List ConnectedWallet :=
  st.connectedWallets.filter (fun w => w.userId == userId)

/-- `createConnectedWallet` of the storage layer: insert one row with a
generated id and return it. -/
def createConnectedWallet (st : Storage) (w : InsertConnectedWallet) :
    ConnectedWallet × Storage :=
  let row : ConnectedWallet :=
    ⟨freshId st.nextId, w.userId, w.walletType, w.walletAddress, w.chainId,
      w.network, w.isActive, w.lastConnected⟩
  (row, { st with connectedWallets := st.connectedWallets ++ [row],
                  nextId := st.nextId + 1 })

/-- The select predicate of `upsertWalletBalance`: the source compares the
stored (nullable) `walletId` column against `balance.walletId || ""`, so a
stored NULL never matches (SQL `NULL = ''` is not true) and a null insert
key is looked up as the empty string. -/
def walletBalanceKeyMatches (b : InsertWalletBalance) (r : WalletBalance) :
    Bool :=
  r.userId == b.userId && r.walletId == some (b.walletId.getD "")
    && r.tokenSymbol == b.tokenSymbol

/-- `upsertWalletBalance` of the storage layer: select rows matching the
(user, walletId-or-empty, token symbol) triple; if one exists, update the
first row's balance, balanceUSD and lastUpdated by its id and return the
updated row, else insert one new row from the insert shape. -/
def upsertWalletBalance (st : Storage) (b : InsertWalletBalance) :
    WalletBalance × Storage :=
  match st.walletBalances.filter (walletBalanceKeyMatches b) with
  | [] =>
    let row : WalletBalance :=
      ⟨freshId st.nextId, b.userId, b.walletId, b.tokenSymbol, b.tokenAddress,
        b.balance, b.balanceUSD, st.now⟩
    (row, { st with walletBalances := st.walletBalances ++ [row],
                    nextId := st.nextId + 1 })
  | e :: _ =>
    ({ e with balance := b.balance, balanceUSD := b.balanceUSD,
              lastUpdated := st.now },
     { st with walletBalances := st.walletBalances.map (fun r =>
         if r.id == e.id then
           { r with balance := b.balance, balanceUSD := b.balanceUSD,
                    lastUpdated := st.now }
         else r) })

/-- Errors thrown by `fetchAndUpdateWalletBalances` (its own catch block
rethrows, so they reach the caller). -/
inductive BalanceError where
  | walletNotFound
  | unsupportedNetwork (network : String)
deriving DecidableEq

/-- The wallet lookup at the top of `fetchAndUpdateWalletBalances`:
`wallets.find(w => w.id === walletId)` over the user's connected wallets. -/
def findWallet (st : Storage) (userId walletId : String) :
    Option ConnectedWallet :=
  (getConnectedWallets st userId).find? (fun w => w.id == walletId)

/-- The save loop of `fetchAndUpdateWalletBalances`: for each raw balance,
set `balanceUSD` when a (truthy) price exists for its symbol, upsert the
row and collect the saved rows in order. -/
def saveBalancesLoop (userId walletId : String)
    (prices : List (String × Rat)) (st : Storage) :
    List RawBalance → List WalletBalance × Storage
  | [] => ([], st)
  | b :: rest =>
    let balanceUSD : Option Rat :=
      match prices.lookup b.tokenSymbol with
      | some p => if p == 0 then none else some (b.balance * p)
      | none => none
    let u := upsertWalletBalance st
      ⟨userId, some walletId, b.tokenSymbol, b.tokenAddress, b.balance,
        balanceUSD⟩
    let tailResult := saveBalancesLoop userId walletId prices u.2 rest
    (u.1 :: tailResult.1, tailResult.2)

/-- Steps 3 to 5 of the reconciler: collect the non-empty symbols
(`.filter(Boolean)` on strings keeps the non-empty ones), fetch prices
once for the batch, then upsert every raw balance. -/
def saveWalletBalances (env : Env) (st : Storage) (walletId userId : String)
    (balances : List RawBalance) : List WalletBalance × Storage :=
  let symbols := (balances.map RawBalance.tokenSymbol).filter
    (fun s => !(s == ""))
  let prices := (getTokenPrices env.price symbols).2
  saveBalancesLoop userId walletId prices st balances

/-- `fetchAndUpdateWalletBalances` of the source: resolve the wallet among
the user's connected wallets (else `Wallet not found`), dispatch on its
network (the EVM cases share `fetchEVMBalance`, `tron` uses
`fetchTronBalance`, anything else throws `Unsupported network`), then save
the balances and return the saved rows. -/
def fetchAndUpdateWalletBalances (env : Env) (st : Storage)
    (walletId userId : String) :
    Except BalanceError (List WalletBalance × Storage) :=
  match findWallet st userId walletId with
  | none => Except.error BalanceError.walletNotFound
  | some wallet =>
    if wallet.network == "ethereum" || wallet.network == "bsc"
        || wallet.network == "polygon" then
      Except.ok (saveWalletBalances env st walletId userId
        (fetchEVMBalance env.evm wallet.walletAddress wallet.network))
    else if wallet.network == "tron" then
      Except.ok (saveWalletBalances env st walletId userId
        (fetchTronBalance env.tron wallet.walletAddress))
    else
      Except.error (BalanceError.unsupportedNetwork wallet.network)

/-- One entry of the `predefinedWallets` list of
`initializeWalletWithAddresses`. -/
structure PredefinedWallet where
  address : String
  network : String
  walletType : String
  description : String
deriving DecidableEq

/-- The predefined wallet list of the source, in order. -/
def predefinedWallets : List PredefinedWallet :=
  [⟨"0xB36EDa1ffC696FFba07D4Be5cd249FE5E0118130", "ethereum", "manual",
     "ETH Wallet"⟩,
   ⟨"bc1qv4fffwt8ux3k33n2dms5cdvuh6suc0gtfevxzu", "bitcoin", "manual",
     "BTC Wallet"⟩,
   ⟨"0xB36EDa1ffC696FFba07D4Be5cd249FE5E0118130", "bsc", "manual",
     "BNB Wallet"⟩,
   ⟨"TSt7yoNwGYRbtMMfkSAHE6dPs1cd9rxcco", "tron", "manual",
     "USDT-TRON Wallet"⟩]

/-- The network guard of the seeding loop:
`['ethereum', 'bsc', 'polygon', 'tron'].includes(wallet.network)`. -/
def fetchableNetworks : List String := ["ethereum", "bsc", "polygon", "tron"]

/-- One iteration of the seeding loop: create the connection (chain id "1",
active, lastConnected now), then fetch initial balances when the network is
fetchable; the per-wallet catch absorbs a fetch error and keeps the created
wallet. -/
def seedPredefinedWallet (env : Env) (userId : String) (st : Storage)
    (pw : PredefinedWallet) : Storage :=
  let created := createConnectedWallet st
    ⟨userId, pw.walletType, pw.address, "1", pw.network, true, st.now⟩
  if fetchableNetworks.contains pw.network then
    match fetchAndUpdateWalletBalances env created.2 created.1.id userId with
    | Except.ok res => res.2
    | Except.error _ => created.2
  else created.2

/-- `initializeWalletWithAddresses` of the source: seed the predefined
wallets if and only if the user has no connected wallet. -/
def initializeWalletWithAddresses (env : Env) (st : Storage)
    (userId : String) : Storage :=
  if (getConnectedWallets st userId).length == 0 then
    predefinedWallets.foldl (seedPredefinedWallet env userId) st
  else st

/-- Number of balance rows of one (user, non-null wallet id, token symbol)
triple. -/
def tripleCount (st : Storage) (uid wid tok : String) : Nat :=
  st.walletBalances.countP (fun r =>
    r.userId == uid && r.walletId == some wid && r.tokenSymbol == tok)

/-- The §3 invariant: at most one balance row per (user, wallet, token
symbol) triple with non-null wallet id. -/
def TripleInvariant (st : Storage) : Prop :=
  ∀ uid wid tok, tripleCount st uid wid tok ≤ 1

theorem upsertWalletBalance_invariant (st : Storage)
    (b : InsertWalletBalance) (h : TripleInvariant st) :
    TripleInvariant (upsertWalletBalance st b).2 := by
  intro uid wid tok
  have hst := h uid wid tok
  unfold tripleCount at hst ⊢
  unfold upsertWalletBalance
  cases hf : st.walletBalances.filter (walletBalanceKeyMatches b) with
  | nil =>
    have hnone : ∀ r ∈ st.walletBalances, ¬ walletBalanceKeyMatches b r := by
      rw [← List.filter_eq_nil_iff]; exact hf
    simp only [hf, List.countP_append, List.countP_cons, List.countP_nil]
    by_cases hrow : (b.userId == uid && b.walletId == some wid
        && b.tokenSymbol == tok) = true
    · obtain ⟨⟨h1, h2⟩, h3⟩ : (b.userId = uid ∧ b.walletId = some wid)
          ∧ b.tokenSymbol = tok := by
        simpa [Bool.and_eq_true, beq_iff_eq] using hrow
      subst h1; subst h3
      have hzero : st.walletBalances.countP (fun r =>
          r.userId == b.userId && r.walletId == some wid
            && r.tokenSymbol == b.tokenSymbol) = 0 := by
        rw [List.countP_eq_zero]
        intro r hr hc
        apply hnone r hr
        unfold walletBalanceKeyMatches
        simpa [h2] using hc
      simp [hzero, h2]
    · have hfalse : (b.userId == uid && b.walletId == some wid
          && b.tokenSymbol == tok) = false := by
        simpa using hrow
      simp only [hfalse, if_false, Nat.add_zero, Nat.zero_add]
      exact hst
  | cons e es =>
    simp only [hf]
    rw [List.countP_map]
    have hsame : st.walletBalances.countP ((fun r =>
        r.userId == uid && r.walletId == some wid && r.tokenSymbol == tok)
        ∘ (fun r => if r.id == e.id then
            { r with balance := b.balance, balanceUSD := b.balanceUSD,
                     lastUpdated := st.now } else r))
        = st.walletBalances.countP (fun r =>
          r.userId == uid && r.walletId == some wid
            && r.tokenSymbol == tok) := by
      apply List.countP_congr
      intro r _
      by_cases hid : (r.id == e.id) = true <;> simp [Function.comp, hid]
    rw [hsame]
    exact hst

theorem filter_keyMatches_eq_nil_iff (s : Storage) (b : InsertWalletBalance)
    (w : String) (hw : b.walletId = some w) :
    s.walletBalances.filter (walletBalanceKeyMatches b) = [] ↔
      ¬ ∃ r ∈ s.walletBalances, r.userId = b.userId ∧ r.walletId = b.walletId
        ∧ r.tokenSymbol = b.tokenSymbol := by
  rw [List.filter_eq_nil_iff]
  constructor
  · rintro h ⟨r, hr, h1, h2, h3⟩
    apply h r hr
    unfold walletBalanceKeyMatches
    simp [h1, h2, h3, hw]
  · intro h r hr hc
    unfold walletBalanceKeyMatches at hc
    simp only [Bool.and_eq_true, beq_iff_eq] at hc
    refine h ⟨r, hr, hc.1.1, ?_, hc.2⟩
    rw [hc.1.2, hw]
    simp

/-- C1: starting from a state in which every (user, wallet, token symbol)
triple with non-null wallet id identifies at most one balance row, any
sequence of `upsertWalletBalance` calls preserves that invariant; and for a
call whose wallet id is non-null, when a row with the same triple exists
the call rewrites that row's balance, balanceUSD and lastUpdated in place
(inserting nothing), otherwise it appends exactly one new row. -/
theorem claim_C1_upsert_triple_invariant (calls : List InsertWalletBalance)
    (st : Storage) (hinv : TripleInvariant st) :
    TripleInvariant (calls.foldl (fun s b => (upsertWalletBalance s b).2) st)
    ∧ (∀ (s : Storage) (b : InsertWalletBalance) (w : String),
        b.walletId = some w →
        ((¬ ∃ r ∈ s.walletBalances, r.userId = b.userId
            ∧ r.walletId = b.walletId ∧ r.tokenSymbol = b.tokenSymbol) →
          (upsertWalletBalance s b).2.walletBalances
            = s.walletBalances ++ [(upsertWalletBalance s b).1])
        ∧ ((∃ r ∈ s.walletBalances, r.userId = b.userId
            ∧ r.walletId = b.walletId ∧ r.tokenSymbol = b.tokenSymbol) →
          ∃ e ∈ s.walletBalances, e.userId = b.userId
            ∧ e.walletId = b.walletId ∧ e.tokenSymbol = b.tokenSymbol
            ∧ (upsertWalletBalance s b).1
              = { e with balance := b.balance, balanceUSD := b.balanceUSD,
                         lastUpdated := s.now }
            ∧ (upsertWalletBalance s b).2.walletBalances
              = s.walletBalances.map (fun r =>
                  if r.id == e.id then
                    { r with balance := b.balance,
                             balanceUSD := b.balanceUSD,
                             lastUpdated := s.now }
                  else r))) := by
  constructor
  · induction calls generalizing st with
    | nil => exact hinv
    | cons c cs ih =>
      exact ih _ (upsertWalletBalance_invariant st c hinv)
  · intro s b w hw
    constructor
    · intro hno
      have hfnil : s.walletBalances.filter (walletBalanceKeyMatches b) = [] :=
        (filter_keyMatches_eq_nil_iff s b w hw).mpr hno
      simp [upsertWalletBalance, hfnil]
    · intro hex
      cases hf : s.walletBalances.filter (walletBalanceKeyMatches b) with
      | nil =>
        exact absurd hex ((filter_keyMatches_eq_nil_iff s b w hw).mp hf)
      | cons e es =>
        have hemem : e ∈ s.walletBalances.filter (walletBalanceKeyMatches b) := by
          rw [hf]; exact List.mem_cons_self e es
        rw [List.mem_filter] at hemem
        have hkey := hemem.2
        unfold walletBalanceKeyMatches at hkey
        simp only [Bool.and_eq_true, beq_iff_eq] at hkey
        refine ⟨e, hemem.1, hkey.1.1, ?_, hkey.2, ?_, ?_⟩
        · rw [hkey.1.2, hw]; simp
        · simp [upsertWalletBalance, hf]
        · simp [upsertWalletBalance, hf]

def emptyStorage : Storage := ⟨[], [], 0, 0⟩

theorem claim_C1_upsert_triple_invariant_witness :
    TripleInvariant (([⟨"u1", some "w1", "ETH", none, 1, none⟩,
        ⟨"u1", some "w1", "ETH", none, 2, some 4⟩] :
        List InsertWalletBalance).foldl
      (fun s b => (upsertWalletBalance s b).2) emptyStorage) :=
  (claim_C1_upsert_triple_invariant _ emptyStorage
    (fun uid wid tok => by simp [tripleCount, emptyStorage])).1

theorem pricesFromResponse_keys (data : List (String × Option Rat))
    (s : String) (h : s ∈ (pricesFromResponse data).map Prod.fst) :
    s ∈ ["BTC", "ETH", "BNB", "USDT", "USDC", "MATIC", "TRX"] := by
  rw [List.mem_map] at h
  obtain ⟨pair, hin, hfst⟩ := h
  rw [pricesFromResponse, List.mem_filterMap] at hin
  obtain ⟨entry, hentry, hsome⟩ := hin
  have hkey : entry.1 = pair.1 := by
    cases hl : data.lookup entry.2 with
    | none => simp [hl] at hsome
    | some o =>
      cases o with
      | none => simp [hl] at hsome
      | some usd =>
        simp only [hl] at hsome
        by_cases h0 : (usd == 0) = true
        · simp [h0] at hsome
        · simp only [h0, Bool.false_eq_true, if_false,
            Option.some.injEq] at hsome
          rw [← hsome]
  rw [← hfst, ← hkey]
  have : entry ∈ symbolMapping := hentry
  simp only [symbolMapping, List.mem_cons, List.not_mem_nil, or_false]
    at this
  rcases this with h | h | h | h | h | h | h <;> rw [h] <;> simp

/-- C7: for every input symbol list and price response, the mapping
returned by `getTokenPrices` never contains a key outside the fixed table
BTC, ETH, BNB, USDT, USDC, MATIC, TRX: a requested symbol outside the
table is silently absent and never an error. -/
theorem claim_C7_price_keys_in_table (env : PriceEnv)
    (symbols : List String) (s : String)
    (hs : s ∉ ["BTC", "ETH", "BNB", "USDT", "USDC", "MATIC", "TRX"]) :
    s ∉ (getTokenPrices env symbols).2.map Prod.fst := by
  intro hmem
  apply hs
  unfold getTokenPrices at hmem
  cases henv : env symbols with
  | ok data =>
    rw [henv] at hmem
    exact pricesFromResponse_keys data s hmem
  | throws => rw [henv] at hmem; simp at hmem
  | notOk => rw [henv] at hmem; simp at hmem

def throwingPriceEnv : PriceEnv := fun _ => CallRes.throws

theorem claim_C7_price_keys_in_table_witness :
    "DOGE" ∉ (getTokenPrices throwingPriceEnv ["DOGE"]).2.map Prod.fst :=
  claim_C7_price_keys_in_table throwingPriceEnv ["DOGE"] "DOGE" (by decide)

/-- C10 (amended): the response-side filtering of `getTokenPrices` never
consults the input symbol list — with the same response, any two input
lists yield the same mapping, and a table symbol is included exactly when
its mapped external id carries a non-zero usd value in the response (a usd
field equal to zero is falsy in JavaScript and is dropped); the input list
only determines the query URL. -/
theorem claim_C10_filter_ignores_input (env : PriceEnv)
    (s1 s2 : List String) (h : env s1 = env s2) :
    (getTokenPrices env s1).2 = (getTokenPrices env s2).2
    ∧ (∀ (data : List (String × Option Rat)) (sym : String) (v : Rat),
        env s1 = CallRes.ok data →
        ((sym, v) ∈ (getTokenPrices env s1).2 ↔
          ∃ id, (sym, id) ∈ symbolMapping
            ∧ data.lookup id = some (some v) ∧ v ≠ 0)) := by
  constructor
  · unfold getTokenPrices
    rw [h]
  · intro data sym v henv
    have hred : (getTokenPrices env s1).2 = pricesFromResponse data := by
      unfold getTokenPrices
      rw [henv]
    rw [hred]
    constructor
    · intro hmem
      rw [pricesFromResponse, List.mem_filterMap] at hmem
      obtain ⟨entry, hentry, hsome⟩ := hmem
      cases hl : data.lookup entry.2 with
      | none => simp [hl] at hsome
      | some o =>
        cases o with
        | none => simp [hl] at hsome
        | some usd =>
          simp only [hl] at hsome
          by_cases h0 : (usd == 0) = true
          · simp [h0] at hsome
          · simp only [h0, Bool.false_eq_true, if_false,
              Option.some.injEq, Prod.mk.injEq] at hsome
            refine ⟨entry.2, ?_, ?_, ?_⟩
            · rw [← hsome.1]; exact hentry
            · rw [hl, hsome.2]
            · rw [← hsome.2]
              simpa using h0
    · rintro ⟨id, hid, hl, hv⟩
      rw [pricesFromResponse, List.mem_filterMap]
      refine ⟨(sym, id), hid, ?_⟩
      rw [hl]
      simp [hv]

def zeroUsdPriceEnv : PriceEnv := fun _ => CallRes.ok [("bitcoin", some 0)]

/-- C10 counterexample: with a response carrying a usd field of value 0 for
the id bitcoin, the table symbol BTC is absent from the result, against the
claim that any table symbol whose mapped id appears with a usd field is
included. -/
theorem claim_C10_cex_zero_usd_dropped :
    ("BTC", "bitcoin") ∈ symbolMapping
    ∧ zeroUsdPriceEnv [] = CallRes.ok [("bitcoin", some (0 : Rat))]
    ∧ (getTokenPrices zeroUsdPriceEnv []).2 = [] := by
  refine ⟨by simp [symbolMapping], rfl, by decide⟩

theorem claim_C10_filter_ignores_input_witness :
    (getTokenPrices throwingPriceEnv ["ETH"]).2
      = (getTokenPrices throwingPriceEnv ["BNB", "TRX"]).2 :=
  (claim_C10_filter_ignores_input throwingPriceEnv ["ETH"] ["BNB", "TRX"]
    rfl).1

/-- C8 (code bug, evaluated at the failing input): called with the symbol
list [BTC], `getTokenPrices` builds a query whose ids parameter is the raw
symbol BTC, even though its own internal table maps BTC to the external id
bitcoin that its response parser then looks up. -/
theorem claim_C8_query_uses_raw_symbols :
    (getTokenPrices throwingPriceEnv ["BTC"]).1
      = "https://api.coingecko.com/api/v3/simple/price?ids=BTC&vs_currencies=usd"
    ∧ symbolMapping.lookup "BTC" = some "bitcoin"
    ∧ "BTC" ≠ "bitcoin" := by
  refine ⟨rfl, by decide, by decide⟩

def oneEtherEvmEnv : EvmEnv :=
  { native := fun network _ =>
      if network == "ethereum" then
        CallRes.ok ⟨"1", some 1000000000000000000⟩
      else CallRes.notOk,
    token := fun _ _ _ => CallRes.notOk }

def usdtFiveEvmEnv : EvmEnv :=
  { native := fun _ _ => CallRes.notOk,
    token := fun network _ symbol =>
      if network == "ethereum" && symbol == "USDT" then
        CallRes.ok ⟨"1", some 5000000⟩
      else CallRes.notOk }

/-- C9: decimal conversion is exact at the specified inputs: a raw native
result of 1000000000000000000 over 10^18 yields balance 1, and a raw USDT
token result of 5000000 with the 6 decimals chosen for USDT or USDC (18
for the other table tokens, here ETH and BNB) yields balance 5. -/
theorem claim_C9_decimal_conversion :
    fetchNativeBalance oneEtherEvmEnv "0xabc" "ethereum"
      = some ⟨"ETH", 1, none⟩
    ∧ fetchTokenBalances usdtFiveEvmEnv "0xabc" "ethereum"
      = [⟨"USDT", 5, some "0xdAC17F958D2ee523a2206206994597C13D831ec7"⟩]
    ∧ tokenDecimals "USDT" = 6 ∧ tokenDecimals "USDC" = 6
    ∧ tokenDecimals "ETH" = 18 ∧ tokenDecimals "BNB" = 18 := by
  refine ⟨?_, ?_, by decide, by decide, by decide, by decide⟩
  · norm_num [fetchNativeBalance, oneEtherEvmEnv, API_ENDPOINTS]
  · have hUC : ("USDC" : String) ≠ "USDT" := by decide
    have hBN : ("BNB" : String) ≠ "USDT" := by decide
    norm_num [fetchTokenBalances, usdtFiveEvmEnv, TOKEN_CONTRACTS,
      API_ENDPOINTS, tokenFetchLoop, tokenDecimals, hUC, hBN]

theorem tokenFetchLoop_not_evm (e : EvmEnv) (network address : String)
    (h : (network == "ethereum" || network == "bsc"
      || network == "polygon") = false)
    (toks : List (String × String)) :
    tokenFetchLoop e network address toks = [] := by
  induction toks with
  | nil => rfl
  | cons t rest ih =>
    obtain ⟨s, c⟩ := t
    unfold tokenFetchLoop
    rw [h]
    simpa using ih

theorem tokenFetchLoop_throws_at (e : EvmEnv) (network address : String)
    (toks1 toks2 : List (String × String)) (sym ca : String)
    (h : e.token network address sym = CallRes.throws) :
    tokenFetchLoop e network address (toks1 ++ (sym, ca) :: toks2)
      = tokenFetchLoop e network address toks1 := by
  by_cases hn : (network == "ethereum" || network == "bsc"
      || network == "polygon") = true
  · induction toks1 with
    | nil =>
      simp only [List.nil_append]
      unfold tokenFetchLoop
      rw [if_pos hn, h]
    | cons t rest ih =>
      obtain ⟨s, c⟩ := t
      simp only [List.cons_append]
      unfold tokenFetchLoop
      rw [if_pos hn, if_pos hn, ih]
  · rw [tokenFetchLoop_not_evm e network address (by simpa using hn) _,
      tokenFetchLoop_not_evm e network address (by simpa using hn) _]

/-- C2 (amended): neither fetcher propagates an exception, but the result
is not always the empty list.  An exception during the TRON account call,
raised before anything was accumulated, yields the empty list; an
exception during the single TRC-20 token call of `fetchTronBalance` loses
only the token part and returns the TRX entries already accumulated
(exactly as a non-ok response there would); and an exception at any call
of the per-token loop inside the helper of `fetchEVMBalance` ends that
loop — unlike a non-ok response, which skips only its own token — so the
fetcher returns the possibly non-empty partially filled list: the native
entry (when present) followed by exactly the token entries collected from
the contract-table entries preceding the throwing call. -/
theorem claim_C2_exceptions_absorbed (et : TronEnv) (e : EvmEnv)
    (address network sym ca : String)
    (toks1 toks2 : List (String × String)) :
    fetchTronBalance { et with tokens := fun _ => CallRes.throws } address
      = fetchTronBalance { et with tokens := fun _ => CallRes.notOk } address
    ∧ fetchTronBalance { et with account := fun _ => CallRes.throws } address
      = []
    ∧ (e.token network address sym = CallRes.throws →
       TOKEN_CONTRACTS.lookup network = some (toks1 ++ (sym, ca) :: toks2) →
       fetchEVMBalance e address network
         = (match fetchNativeBalance e address network with
            | some b => [b]
            | none => [])
           ++ tokenFetchLoop e network address toks1) := by
  refine ⟨?_, rfl, ?_⟩
  · cases h : et.account address <;> simp [fetchTronBalance, h]
  · intro hthrow hlookup
    have hnet : network = "ethereum" ∨ network = "bsc"
        ∨ network = "polygon" := by
      by_contra hc
      push_neg at hc
      obtain ⟨h1, h2, h3⟩ := hc
      have b1 : (network == "ethereum") = false := beq_eq_false_iff_ne.mpr h1
      have b2 : (network == "bsc") = false := beq_eq_false_iff_ne.mpr h2
      have b3 : (network == "polygon") = false := beq_eq_false_iff_ne.mpr h3
      simp [TOKEN_CONTRACTS, List.lookup, b1, b2, b3] at hlookup
    have he : (API_ENDPOINTS.lookup network).isSome = true := by
      rcases hnet with h | h | h <;> rw [h] <;> decide
    unfold fetchEVMBalance fetchTokenBalances
    rw [hlookup]
    dsimp only []
    rw [if_pos he, tokenFetchLoop_throws_at e network address toks1 toks2
      sym ca hthrow]

def tronThrowingTokensEnv : TronEnv :=
  { account := fun _ => CallRes.ok ⟨some [⟨some 1000000⟩]⟩,
    tokens := fun _ => CallRes.throws }

/-- C2 counterexample: with the TRON account call succeeding (raw balance
1000000, one TRX) and the TRC-20 token call raising an exception, the
fetcher catches the exception but returns the partially filled one-entry
list, not the empty list. -/
theorem claim_C2_cex_partial_list :
    tronThrowingTokensEnv.tokens "Taddr" = CallRes.throws
    ∧ fetchTronBalance tronThrowingTokensEnv "Taddr"
      = [⟨"TRX", 1, none⟩] := by
  refine ⟨rfl, ?_⟩
  norm_num [fetchTronBalance, tronThrowingTokensEnv]

def midLoopThrowEvmEnv : EvmEnv :=
  { native := fun _ _ => CallRes.notOk,
    token := fun network _ symbol =>
      if network == "ethereum" && symbol == "USDT" then
        CallRes.ok ⟨"1", some 5000000⟩
      else if network == "ethereum" && symbol == "USDC" then
        CallRes.throws
      else CallRes.ok ⟨"1", some 7000000⟩ }

theorem claim_C2_exceptions_absorbed_witness :
    midLoopThrowEvmEnv.token "ethereum" "0xabc" "USDC" = CallRes.throws
    ∧ midLoopThrowEvmEnv.token "ethereum" "0xabc" "BNB"
      = CallRes.ok ⟨"1", some 7000000⟩
    ∧ fetchEVMBalance midLoopThrowEvmEnv "0xabc" "ethereum"
      = [⟨"USDT", 5, some "0xdAC17F958D2ee523a2206206994597C13D831ec7"⟩] := by
  refine ⟨by decide, by decide, ?_⟩
  have h := (claim_C2_exceptions_absorbed
    ⟨fun _ => CallRes.notOk, fun _ => CallRes.notOk⟩ midLoopThrowEvmEnv
    "0xabc" "ethereum" "USDC" "0xA0b86a33E6417C5BB1d1e91a064B1B8a9166B1b8"
    [("USDT", "0xdAC17F958D2ee523a2206206994597C13D831ec7")]
    [("BNB", "0xB8c77482e45F1F44dE1745F52C74426C631bDD52")]).2.2
    (by decide) (by decide)
  rw [h]
  norm_num [fetchNativeBalance, midLoopThrowEvmEnv, API_ENDPOINTS,
    tokenFetchLoop, tokenDecimals]

theorem findWallet_some_facts (st : Storage) (userId walletId : String)
    (w : ConnectedWallet) (h : findWallet st userId walletId = some w) :
    w ∈ st.connectedWallets ∧ w.id = walletId ∧ w.userId = userId := by
  unfold findWallet getConnectedWallets at h
  have h1 := List.find?_some h
  have h2 := List.mem_of_find?_eq_some h
  rw [List.mem_filter] at h2
  exact ⟨h2.1, beq_iff_eq.mp h1, beq_iff_eq.mp h2.2⟩

/-- C4: `fetchAndUpdateWalletBalances` fails with the Wallet-not-found
error exactly when the wallet id is not among the connected wallets of the
requesting user; in particular a wallet id that belongs only to a
different user never matches and always produces this error. -/
theorem claim_C4_wallet_not_found_iff (env : Env) (st : Storage)
    (walletId userId : String) :
    fetchAndUpdateWalletBalances env st walletId userId
        = Except.error BalanceError.walletNotFound
      ↔ ∀ w ∈ st.connectedWallets,
          ¬ (w.id = walletId ∧ w.userId = userId) := by
  unfold fetchAndUpdateWalletBalances
  cases hfind : findWallet st userId walletId with
  | none =>
    constructor
    · intro _
      unfold findWallet getConnectedWallets at hfind
      rw [List.find?_eq_none] at hfind
      rintro w hw ⟨h1, h2⟩
      have hwf : w ∈ st.connectedWallets.filter
          (fun w => w.userId == userId) := by
        rw [List.mem_filter]
        exact ⟨hw, by simp [h2]⟩
      have := hfind w hwf
      simp [h1] at this
    · intro _; rfl
  | some w =>
    constructor
    · intro hres
      by_cases h1 : (w.network == "ethereum" || w.network == "bsc"
          || w.network == "polygon") = true
      · simp [h1] at hres
      · by_cases h2 : (w.network == "tron") = true
        · simp [h1, h2] at hres
        · simp [h1, h2] at hres
    · intro hall
      exfalso
      obtain ⟨hmem, hid, huser⟩ := findWallet_some_facts st userId walletId
        w hfind
      exact hall w hmem ⟨hid, huser⟩

/-- C5: the network dispatch of `fetchAndUpdateWalletBalances` on the
found wallet: ethereum, bsc and polygon go to `fetchEVMBalance`, tron goes
to `fetchTronBalance`, every other network fails with the
Unsupported-network error. -/
theorem claim_C5_network_dispatch (env : Env) (st : Storage)
    (walletId userId : String) (w : ConnectedWallet)
    (hw : findWallet st userId walletId = some w) :
    ((w.network = "ethereum" ∨ w.network = "bsc" ∨ w.network = "polygon") →
      fetchAndUpdateWalletBalances env st walletId userId
        = Except.ok (saveWalletBalances env st walletId userId
            (fetchEVMBalance env.evm w.walletAddress w.network)))
    ∧ (w.network = "tron" →
      fetchAndUpdateWalletBalances env st walletId userId
        = Except.ok (saveWalletBalances env st walletId userId
            (fetchTronBalance env.tron w.walletAddress)))
    ∧ (w.network ∉ (["ethereum", "bsc", "polygon", "tron"] : List String) →
      fetchAndUpdateWalletBalances env st walletId userId
        = Except.error (BalanceError.unsupportedNetwork w.network)) := by
  unfold fetchAndUpdateWalletBalances
  rw [hw]
  refine ⟨?_, ?_, ?_⟩
  · rintro (h | h | h) <;> simp [h]
  · intro h
    simp [h, (by decide : (("tron" : String) == "ethereum") = false),
      (by decide : (("tron" : String) == "bsc") = false),
      (by decide : (("tron" : String) == "polygon") = false)]
  · intro h
    simp only [List.mem_cons, List.not_mem_nil, or_false, not_or] at h
    obtain ⟨h1, h2, h3, h4⟩ := h
    simp [h1, h2, h3, h4]

def emptyEnv : Env :=
  { evm := { native := fun _ _ => CallRes.notOk,
             token := fun _ _ _ => CallRes.notOk },
    tron := { account := fun _ => CallRes.notOk,
              tokens := fun _ => CallRes.notOk },
    price := fun _ => CallRes.throws }

def sampleEthWallet : ConnectedWallet :=
  ⟨"w1", "u1", "manual", "0xabc", "1", "ethereum", true, 0⟩

def ethOnlyStorage : Storage := ⟨[sampleEthWallet], [], 0, 0⟩

theorem claim_C5_network_dispatch_witness :
    fetchAndUpdateWalletBalances emptyEnv ethOnlyStorage "w1" "u1"
      = Except.ok (saveWalletBalances emptyEnv ethOnlyStorage "w1" "u1"
          (fetchEVMBalance emptyEnv.evm sampleEthWallet.walletAddress
            sampleEthWallet.network)) :=
  (claim_C5_network_dispatch emptyEnv ethOnlyStorage "w1" "u1"
    sampleEthWallet (by decide)).1 (Or.inl rfl)

/-- Every explorer query of this EVM address reports a successful zero
balance (status "1", result string "0"). -/
def ZeroActivityEvm (e : EvmEnv) (addr : String) : Prop :=
  (∀ net, e.native net addr = CallRes.ok ⟨"1", some 0⟩)
  ∧ (∀ net sym, e.token net addr sym = CallRes.ok ⟨"1", some 0⟩)

/-- The TronGrid queries of this address report no account data and no
TRC-20 tokens, as they do for an address with no on-chain activity. -/
def ZeroActivityTron (e : TronEnv) (addr : String) : Prop :=
  e.account addr = CallRes.ok ⟨some []⟩
    ∧ e.tokens addr = CallRes.ok ⟨some []⟩

theorem fetchEVMBalance_zero_ethereum (e : EvmEnv) (addr : String)
    (h : ZeroActivityEvm e addr) :
    fetchEVMBalance e addr "ethereum" = [⟨"ETH", 0, none⟩] := by
  norm_num [fetchEVMBalance, fetchNativeBalance, fetchTokenBalances,
    API_ENDPOINTS, TOKEN_CONTRACTS, tokenFetchLoop, h.1, h.2]

theorem fetchEVMBalance_zero_bsc (e : EvmEnv) (addr : String)
    (h : ZeroActivityEvm e addr) :
    fetchEVMBalance e addr "bsc" = [⟨"BNB", 0, none⟩] := by
  norm_num [fetchEVMBalance, fetchNativeBalance, fetchTokenBalances,
    API_ENDPOINTS, TOKEN_CONTRACTS, tokenFetchLoop, List.lookup, h.1, h.2,
    (by decide : (("bsc" : String) == "ethereum") = false)]

theorem fetchEVMBalance_zero_polygon (e : EvmEnv) (addr : String)
    (h : ZeroActivityEvm e addr) :
    fetchEVMBalance e addr "polygon" = [⟨"MATIC", 0, none⟩] := by
  norm_num [fetchEVMBalance, fetchNativeBalance, fetchTokenBalances,
    API_ENDPOINTS, TOKEN_CONTRACTS, tokenFetchLoop, List.lookup, h.1, h.2,
    (by decide : (("polygon" : String) == "ethereum") = false),
    (by decide : (("polygon" : String) == "bsc") = false)]

theorem fetchTronBalance_zero (e : TronEnv) (addr : String)
    (h : ZeroActivityTron e addr) :
    fetchTronBalance e addr = [] := by
  simp [fetchTronBalance, h.1, h.2]

theorem upsertWalletBalance_saved_fields (st : Storage)
    (b : InsertWalletBalance) :
    (upsertWalletBalance st b).1.balance = b.balance
    ∧ (upsertWalletBalance st b).1.tokenSymbol = b.tokenSymbol := by
  unfold upsertWalletBalance
  cases hf : st.walletBalances.filter (walletBalanceKeyMatches b) with
  | nil => exact ⟨rfl, rfl⟩
  | cons e es =>
    refine ⟨rfl, ?_⟩
    have hmem : e ∈ st.walletBalances.filter (walletBalanceKeyMatches b) := by
      rw [hf]; exact List.mem_cons_self e es
    have hkey := (List.mem_filter.mp hmem).2
    unfold walletBalanceKeyMatches at hkey
    simp only [Bool.and_eq_true, beq_iff_eq] at hkey
    exact hkey.2

theorem saveWalletBalances_single (env : Env) (st : Storage)
    (walletId userId sym : String) (v : Rat) :
    ∃ r st2, saveWalletBalances env st walletId userId [⟨sym, v, none⟩]
        = ([r], st2) ∧ r.balance = v ∧ r.tokenSymbol = sym := by
  unfold saveWalletBalances saveBalancesLoop
  refine ⟨_, _, rfl, ?_, ?_⟩
  · exact (upsertWalletBalance_saved_fields _ _).1
  · exact (upsertWalletBalance_saved_fields _ _).2

/-- C3 (amended): with every upstream query reporting zero, the reconciler
returns without error; for a tron wallet the returned list is empty and the
state unchanged, but for an EVM wallet the list holds exactly one
native-coin entry of balance 0: the source includes the native entry on the
truthiness of the result string, and "0" is truthy in JavaScript, while
zero token balances are filtered out by the explicit check against the
string "0". -/
theorem claim_C3_zero_activity (env : Env) (st : Storage)
    (walletId userId : String) (w : ConnectedWallet)
    (hw : findWallet st userId walletId = some w) :
    (w.network = "tron" → ZeroActivityTron env.tron w.walletAddress →
      fetchAndUpdateWalletBalances env st walletId userId
        = Except.ok ([], st))
    ∧ ((w.network = "ethereum" ∨ w.network = "bsc"
        ∨ w.network = "polygon") →
      ZeroActivityEvm env.evm w.walletAddress →
      ∃ r st2, fetchAndUpdateWalletBalances env st walletId userId
          = Except.ok ([r], st2)
        ∧ r.balance = 0
        ∧ (r.tokenSymbol = "ETH" ∨ r.tokenSymbol = "BNB"
            ∨ r.tokenSymbol = "MATIC")) := by
  unfold fetchAndUpdateWalletBalances
  rw [hw]
  constructor
  · intro hnet hzero
    simp [hnet, (by decide : (("tron" : String) == "ethereum") = false),
      (by decide : (("tron" : String) == "bsc") = false),
      (by decide : (("tron" : String) == "polygon") = false),
      fetchTronBalance_zero env.tron w.walletAddress hzero,
      saveWalletBalances, saveBalancesLoop]
  · rintro (h | h | h) hzero
    · obtain ⟨r, st2, heq, hb, hs⟩ := saveWalletBalances_single env st
        walletId userId "ETH" 0
      refine ⟨r, st2, ?_, hb, Or.inl hs⟩
      simp only [h, beq_self_eq_true, Bool.true_or, if_true]
      rw [fetchEVMBalance_zero_ethereum env.evm w.walletAddress hzero, heq]
    · obtain ⟨r, st2, heq, hb, hs⟩ := saveWalletBalances_single env st
        walletId userId "BNB" 0
      refine ⟨r, st2, ?_, hb, Or.inr (Or.inl hs)⟩
      simp only [h, beq_self_eq_true, Bool.or_true, Bool.true_or,
        (by decide : (("bsc" : String) == "ethereum") = false),
        Bool.false_or, if_true]
      rw [fetchEVMBalance_zero_bsc env.evm w.walletAddress hzero, heq]
    · obtain ⟨r, st2, heq, hb, hs⟩ := saveWalletBalances_single env st
        walletId userId "MATIC" 0
      refine ⟨r, st2, ?_, hb, Or.inr (Or.inr hs)⟩
      simp only [h, beq_self_eq_true, Bool.or_true,
        (by decide : (("polygon" : String) == "ethereum") = false),
        (by decide : (("polygon" : String) == "bsc") = false),
        Bool.false_or, if_true]
      rw [fetchEVMBalance_zero_polygon env.evm w.walletAddress hzero, heq]

def zeroActivityEnv : Env :=
  { evm := { native := fun _ _ => CallRes.ok ⟨"1", some 0⟩,
             token := fun _ _ _ => CallRes.ok ⟨"1", some 0⟩ },
    tron := { account := fun _ => CallRes.ok ⟨some []⟩,
              tokens := fun _ => CallRes.ok ⟨some []⟩ },
    price := fun _ => CallRes.throws }

/-- C3 counterexample: an ethereum wallet whose upstream queries all
report zero balances yields a one-entry result list (the native entry of
balance 0), not the empty list the claim asserts. -/
theorem claim_C3_cex_nonempty_list :
    (fetchAndUpdateWalletBalances zeroActivityEnv ethOnlyStorage "w1"
        "u1").map (fun p => p.1.length)
      = Except.ok 1 := by
  have hz : ZeroActivityEvm zeroActivityEnv.evm "0xabc" :=
    ⟨fun _ => rfl, fun _ _ => rfl⟩
  have hfetch := fetchEVMBalance_zero_ethereum zeroActivityEnv.evm "0xabc" hz
  obtain ⟨r, st2, heq, hb, hs⟩ := saveWalletBalances_single zeroActivityEnv
    ethOnlyStorage "w1" "u1" "ETH" 0
  unfold fetchAndUpdateWalletBalances
  have hfind : findWallet ethOnlyStorage "u1" "w1"
      = some sampleEthWallet := by decide
  rw [hfind]
  simp only [sampleEthWallet, beq_self_eq_true, Bool.true_or, if_true]
  rw [hfetch, heq]
  rfl

def sampleTronWallet : ConnectedWallet :=
  ⟨"w2", "u2", "manual", "Taddr", "1", "tron", true, 0⟩

def tronOnlyStorage : Storage := ⟨[sampleTronWallet], [], 0, 0⟩

theorem claim_C3_zero_activity_witness :
    fetchAndUpdateWalletBalances zeroActivityEnv tronOnlyStorage "w2" "u2"
      = Except.ok ([], tronOnlyStorage) :=
  (claim_C3_zero_activity zeroActivityEnv tronOnlyStorage "w2" "u2"
    sampleTronWallet (by decide)).1 rfl ⟨rfl, rfl⟩

theorem upsertWalletBalance_frame (st : Storage) (b : InsertWalletBalance) :
    (upsertWalletBalance st b).2.connectedWallets = st.connectedWallets
    ∧ (upsertWalletBalance st b).2.now = st.now := by
  unfold upsertWalletBalance
  cases st.walletBalances.filter (walletBalanceKeyMatches b) with
  | nil => exact ⟨rfl, rfl⟩
  | cons e es => exact ⟨rfl, rfl⟩

theorem saveBalancesLoop_frame (userId walletId : String)
    (prices : List (String × Rat)) (bs : List RawBalance) (st : Storage) :
    (saveBalancesLoop userId walletId prices st bs).2.connectedWallets
        = st.connectedWallets
    ∧ (saveBalancesLoop userId walletId prices st bs).2.now = st.now := by
  induction bs generalizing st with
  | nil => exact ⟨rfl, rfl⟩
  | cons b rest ih =>
    have h1 := upsertWalletBalance_frame st
      ⟨userId, some walletId, b.tokenSymbol, b.tokenAddress, b.balance,
        match prices.lookup b.tokenSymbol with
        | some p => if p == 0 then none else some (b.balance * p)
        | none => none⟩
    have h2 := ih (upsertWalletBalance st
      ⟨userId, some walletId, b.tokenSymbol, b.tokenAddress, b.balance,
        match prices.lookup b.tokenSymbol with
        | some p => if p == 0 then none else some (b.balance * p)
        | none => none⟩).2
    exact ⟨h2.1.trans h1.1, h2.2.trans h1.2⟩

theorem fetchAndUpdate_frame (env : Env) (st : Storage)
    (walletId userId : String) (res : List WalletBalance × Storage)
    (h : fetchAndUpdateWalletBalances env st walletId userId
      = Except.ok res) :
    res.2.connectedWallets = st.connectedWallets ∧ res.2.now = st.now := by
  unfold fetchAndUpdateWalletBalances at h
  cases hf : findWallet st userId walletId with
  | none => rw [hf] at h; exact absurd h (by simp)
  | some w =>
    rw [hf] at h
    dsimp only [] at h
    by_cases h1 : (w.network == "ethereum" || w.network == "bsc"
        || w.network == "polygon") = true
    · rw [if_pos h1] at h
      have := Except.ok.inj h
      rw [← this]
      exact saveBalancesLoop_frame _ _ _ _ _
    · rw [if_neg h1] at h
      by_cases h2 : (w.network == "tron") = true
      · rw [if_pos h2] at h
        have := Except.ok.inj h
        rw [← this]
        exact saveBalancesLoop_frame _ _ _ _ _
      · rw [if_neg h2] at h
        exact absurd h (by simp)

theorem seedPredefinedWallet_cw (env : Env) (userId : String) (st : Storage)
    (pw : PredefinedWallet) :
    (seedPredefinedWallet env userId st pw).connectedWallets
      = st.connectedWallets
        ++ [⟨freshId st.nextId, userId, pw.walletType, pw.address, "1",
             pw.network, true, st.now⟩] := by
  unfold seedPredefinedWallet createConnectedWallet
  by_cases hc : fetchableNetworks.contains pw.network = true
  · simp only [hc, if_true]
    cases hf : fetchAndUpdateWalletBalances env _ _ userId with
    | ok r => exact (fetchAndUpdate_frame env _ _ userId r hf).1
    | error e => rfl
  · simp only [Bool.not_eq_true] at hc
    simp only [hc, Bool.false_eq_true, if_false]

/-- C6: `initializeWalletWithAddresses` creates wallet connections if and
only if the user has no connected wallet: with at least one existing
wallet (related to the predefined set or not) it changes nothing; with
none it inserts the four predefined wallets (ethereum, bitcoin, bsc,
tron) and invokes the reconciler exactly for the created wallets whose
network is fetchable — ethereum, bsc and tron, but not bitcoin. -/
theorem claim_C6_bootstrap (env : Env) (st : Storage) (userId : String) :
    (getConnectedWallets st userId ≠ [] →
      initializeWalletWithAddresses env st userId = st)
    ∧ (getConnectedWallets st userId = [] →
      ((initializeWalletWithAddresses env st userId).connectedWallets.filter
          (fun w => w.userId == userId)).map
          (fun w => (w.walletAddress, w.network, w.walletType))
        = [("0xB36EDa1ffC696FFba07D4Be5cd249FE5E0118130", "ethereum",
              "manual"),
           ("bc1qv4fffwt8ux3k33n2dms5cdvuh6suc0gtfevxzu", "bitcoin",
              "manual"),
           ("0xB36EDa1ffC696FFba07D4Be5cd249FE5E0118130", "bsc", "manual"),
           ("TSt7yoNwGYRbtMMfkSAHE6dPs1cd9rxcco", "tron", "manual")]
      ∧ initializeWalletWithAddresses env st userId =
          (let c1 := createConnectedWallet st
             ⟨userId, "manual", "0xB36EDa1ffC696FFba07D4Be5cd249FE5E0118130",
               "1", "ethereum", true, st.now⟩
           let s1 :=
             match fetchAndUpdateWalletBalances env c1.2 c1.1.id userId with
             | Except.ok r => r.2
             | Except.error _ => c1.2
           let c2 := createConnectedWallet s1
             ⟨userId, "manual", "bc1qv4fffwt8ux3k33n2dms5cdvuh6suc0gtfevxzu",
               "1", "bitcoin", true, s1.now⟩
           let c3 := createConnectedWallet c2.2
             ⟨userId, "manual", "0xB36EDa1ffC696FFba07D4Be5cd249FE5E0118130",
               "1", "bsc", true, c2.2.now⟩
           let s3 :=
             match fetchAndUpdateWalletBalances env c3.2 c3.1.id userId with
             | Except.ok r => r.2
             | Except.error _ => c3.2
           let c4 := createConnectedWallet s3
             ⟨userId, "manual", "TSt7yoNwGYRbtMMfkSAHE6dPs1cd9rxcco",
               "1", "tron", true, s3.now⟩
           match fetchAndUpdateWalletBalances env c4.2 c4.1.id userId with
           | Except.ok r => r.2
           | Except.error _ => c4.2)) := by
  constructor
  · intro h
    have hlen : (getConnectedWallets st userId).length ≠ 0 := by
      intro hc
      exact h (List.length_eq_zero.mp hc)
    have hcond : ((getConnectedWallets st userId).length == 0) = false := by
      simpa using hlen
    unfold initializeWalletWithAddresses
    rw [hcond]
    rfl
  · intro h
    have hcond : ((getConnectedWallets st userId).length == 0) = true := by
      rw [h]
      rfl
    have hfilter : st.connectedWallets.filter
        (fun w => w.userId == userId) = [] := h
    constructor
    · unfold initializeWalletWithAddresses
      rw [hcond]
      show (((predefinedWallets.foldl (seedPredefinedWallet env userId)
        st).connectedWallets.filter (fun w => w.userId == userId)).map
          (fun w => (w.walletAddress, w.network, w.walletType))) = _
      simp only [predefinedWallets, List.foldl]
      rw [seedPredefinedWallet_cw, seedPredefinedWallet_cw,
        seedPredefinedWallet_cw, seedPredefinedWallet_cw]
      simp only [List.filter_append, hfilter, List.nil_append]
      simp [List.filter]
    · unfold initializeWalletWithAddresses
      rw [hcond]
      rfl

theorem claim_C6_bootstrap_witness :
    ((initializeWalletWithAddresses emptyEnv emptyStorage
        "u1").connectedWallets.filter (fun w => w.userId == "u1")).map
        (fun w => (w.walletAddress, w.network, w.walletType))
      = [("0xB36EDa1ffC696FFba07D4Be5cd249FE5E0118130", "ethereum",
            "manual"),
         ("bc1qv4fffwt8ux3k33n2dms5cdvuh6suc0gtfevxzu", "bitcoin",
            "manual"),
         ("0xB36EDa1ffC696FFba07D4Be5cd249FE5E0118130", "bsc", "manual"),
         ("TSt7yoNwGYRbtMMfkSAHE6dPs1cd9rxcco", "tron", "manual")] :=
  ((claim_C6_bootstrap emptyEnv emptyStorage "u1").2 rfl).1
